import Mathlib

/-!
Shallow embedding of the dispatch/lifecycle core of react-toastify
(src/react-toastify/src/core/toast.ts): the module-level state
(containers registry, latest instance, pending queue, lazy flag), the
dispatcher operations (toast call, dismiss, isActive, update, done), and
the DID_MOUNT / WILL_UNMOUNT bus handlers.  The event bus is modelled
observationally: every emit is recorded as an event in an output trace,
and the bus listener table is carried in the state so that the
WILL_UNMOUNT detach behaviour is visible.
-/

/-- JavaScript primitive values that appear in the toastId and containerId
positions of the toast core: strings, numbers (non-NaN numbers are modelled
as integers, NaN is a separate constructor so that the isNaN test in
getToastId is expressible), undefined and null. -/
inductive JSVal where
  | vstr (s : String)
  | vnum (n : Int)
  | vnan
  | vundefined
  | vnull
  deriving DecidableEq

/-- JavaScript truthiness for the values of JSVal: the empty string, the
number 0, NaN, undefined and null are falsy, everything else is truthy. -/
def truthy : JSVal → Bool
  | .vstr s => !(s == "")
  | .vnum n => !(n == 0)
  | .vnan => false
  | .vundefined => false
  | .vnull => false

/-- JavaScript strict equality on JSVal: structural equality, except that
NaN is not strictly equal to anything, itself included. -/
def jsStrictEq (a b : JSVal) : Bool :=
  if a == .vnan || b == .vnan then false else a == b

/-- String conversion applied to a value used as a property key, as in the
collection access of getToast (a JavaScript object key is a string). -/
def jsToKey : JSVal → String
  | .vstr s => s
  | .vnum n => toString n
  | .vnan => "NaN"
  | .vundefined => "undefined"
  | .vnull => "null"

/-- Toast content is opaque to the core (text, markup or a render
function); it is modelled as an abstract token. -/
abbrev ToastContent := Nat

/-- The options object seen by the core.  A field holding none models an
absent key; a present key holds a JSVal (or a content payload for render).
Only the keys the core reads or writes are modelled; autoClose stands in
for the passthrough keys that the core merges but never inspects. -/
structure ToastOptions where
  toastId : Option JSVal := none
  type : Option String := none
  containerId : Option JSVal := none
  progress : Option JSVal := none
  render : Option ToastContent := none
  updateId : Option JSVal := none
  staleToastId : Option JSVal := none
  autoClose : Option JSVal := none
  deriving DecidableEq

/-- One field of a JavaScript object spread: the second object wins when
it has the key, otherwise the first object contributes its value. -/
def spreadField {α : Type} (oldF updF : Option α) : Option α :=
  match updF with
  | some v => some v
  | none => oldF

/-- Object spread of two option objects, field by field, the second
argument taking precedence, as in the nextOptions literal of toast.update. -/
def spreadOptions (old upd : ToastOptions) : ToastOptions where
  toastId := spreadField old.toastId upd.toastId
  type := spreadField old.type upd.type
  containerId := spreadField old.containerId upd.containerId
  progress := spreadField old.progress upd.progress
  render := spreadField old.render upd.render
  updateId := spreadField old.updateId upd.updateId
  staleToastId := spreadField old.staleToastId upd.staleToastId
  autoClose := spreadField old.autoClose upd.autoClose

/-- A notification record as stored in a display surface collection:
content plus options, as destructured by toast.update. -/
structure ToastRecord where
  content : ToastContent
  options : ToastOptions
  deriving DecidableEq

/-- A container instance as seen by the core: its containerId property
(possibly undefined), an instance tag standing for the object identity of
the instance, its collection (a JavaScript object keyed by stringified
toast ids) and the set of ids its isToastActive method reports.  The
collection and membership test live in the display surface, outside this
module; they are modelled as plain data the core queries. -/
structure Container where
  containerId : JSVal := .vundefined
  instanceTag : Nat := 0
  collection : List (String × ToastRecord) := []
  activeIds : List JSVal := []
  deriving DecidableEq

/-- Membership test of a container, container.isToastActive(id). -/
def isToastActiveIn (c : Container) (id : JSVal) : Bool :=
  c.activeIds.any (fun x => x == id)

/-- A key of the containers Map: latestInstance and the Map keys are
containerInstance.containerId when that is truthy, otherwise the container
instance object itself. -/
inductive RegKey where
  | byId (v : JSVal)
  | byInstance (tag : Nat)
  deriving DecidableEq

/-- The key under which a container instance is registered:
containerInstance.containerId or else the instance itself. -/
def containerKey (c : Container) : RegKey :=
  if truthy c.containerId then .byId c.containerId else .byInstance c.instanceTag

/-- Map.set: overwrite in place when the key exists, append otherwise
(JavaScript Map preserves insertion order). -/
def mapSet {κ α : Type} [DecidableEq κ] (m : List (κ × α)) (k : κ) (v : α) :
    List (κ × α) :=
  if m.any (fun p => p.1 == k) then
    m.map (fun p => if p.1 == k then (k, v) else p)
  else m ++ [(k, v)]

/-- Map.get: the value under the key, if any. -/
def mapGet {κ α : Type} [DecidableEq κ] (m : List (κ × α)) (k : κ) : Option α :=
  (m.find? (fun p => p.1 == k)).map Prod.snd

/-- Map.delete: remove the entry under the key, keep the rest. -/
def mapDelete {κ α : Type} [DecidableEq κ] (m : List (κ × α)) (k : κ) :
    List (κ × α) :=
  m.filter (fun p => !(p.1 == k))

/-- A pending queue entry: action kind, content and options, as pushed by
dispatchToast while no container is mounted. -/
structure QueueEntry where
  action : String
  content : ToastContent
  options : ToastOptions
  deriving DecidableEq

/-- An observable bus emission: show carries the action string, content
and options; clear carries the optional toast id. -/
inductive Event where
  | showEvt (action : String) (content : ToastContent) (options : ToastOptions)
  | clearEvt (id : Option JSVal)
  deriving DecidableEq

/-- The module-level state of the toast core: the containers Map, the
latest registered key, the pending queue, the lazy-mount flag, whether a
lazily created DOM node exists, the canUseDom environment flag, the
allocator seed (abstracting the entropy behind generateToastId), the
stored lazy container configuration, and the bus listener table (action
name mapped to listener tags). -/
structure ToastState where
  containers : List (RegKey × Container) := []
  latestInstance : Option RegKey := none
  queue : List QueueEntry := []
  lazy : Bool := false
  domNode : Bool := false
  canUseDom : Bool := true
  seed : Nat := 0
  containerConfig : Nat := 0
  busListeners : List (String × List Nat) := []
  deriving DecidableEq

/-- isAnyContainerMounted: containers.size is positive. -/
def isAnyContainerMounted (s : ToastState) : Bool :=
  decide (0 < s.containers.length)

/-- generateToastId.  The source derives the value from Math.random and
Date.now; the entropy source is abstracted as a monotone seed, keeping the
property that each draw yields a value not produced before. -/
def generateToastId (seed : Nat) : JSVal :=
  .vstr ("gen:" ++ toString seed)

/-- getToastId: keep the caller-supplied toastId when it is a string, or a
number that is not NaN; otherwise generate.  Returns the id together with
the seed after any generation. -/
def getToastId (options : Option ToastOptions) (seed : Nat) : JSVal × Nat :=
  match options with
  | some o =>
    match o.toastId with
    | some (.vstr str) => (.vstr str, seed)
    | some (.vnum n) => (.vnum n, seed)
    | _ => (generateToastId seed, seed + 1)
  | none => (generateToastId seed, seed + 1)

/-- The type argument computed at the call sites of mergeOptions:
(options and options.type) or TYPE.DEFAULT. -/
def resolveType (options : Option ToastOptions) : String :=
  match options with
  | some o =>
    match o.type with
    | some t => if t == "" then "default" else t
    | none => "default"
  | none => "default"

/-- mergeOptions: spread the caller options, then force the type and the
resolved toastId. -/
def mergeOptions (options : Option ToastOptions) (ty : String) (seed : Nat) :
    ToastOptions × Nat :=
  let o := options.getD {}
  let r := getToastId options seed
  ({ o with type := some ty, toastId := some r.1 }, r.2)

/-- The outcome of dispatchToast: the new state, the emitted events and
the returned toast id. -/
structure DispatchResult where
  state : ToastState
  events : List Event
  ret : JSVal
  deriving DecidableEq

/-- dispatchToast: when a container is mounted, emit show; otherwise push
the request on the queue and, when lazy mounting is armed and the DOM is
usable, consume the flag and create the container DOM node.  Either way
return options.toastId. -/
def dispatchToast (content : ToastContent) (options : ToastOptions)
    (s : ToastState) : DispatchResult :=
  if isAnyContainerMounted s then
    { state := s
      events := [.showEvt "show" content options]
      ret := options.toastId.getD .vundefined }
  else
    let s1 := { s with queue := s.queue ++ [⟨"show", content, options⟩] }
    let s2 :=
      if s1.lazy && s1.canUseDom then { s1 with lazy := false, domNode := true }
      else s1
    { state := s2, events := [], ret := options.toastId.getD .vundefined }

/-- The toast call itself: merge the options with the resolved type and
id, then dispatch. -/
def toastShow (content : ToastContent) (options : Option ToastOptions)
    (s : ToastState) : DispatchResult :=
  let m := mergeOptions options (resolveType options) s.seed
  dispatchToast content m.1 { s with seed := m.2 }

/-- toast.dismiss: emit clear when some container is mounted, otherwise do
nothing; the module state is untouched in both cases. -/
def toastDismiss (id : Option JSVal) (s : ToastState) : ToastState × List Event :=
  if isAnyContainerMounted s then (s, [.clearEvt id]) else (s, [])

/-- toast.isActive: start from false and, when the registry is non-empty,
walk every container and latch the flag as soon as one reports the id. -/
def toastIsActive (id : JSVal) (s : ToastState) : Bool :=
  if 0 < s.containers.length then
    s.containers.foldl (fun acc p => if isToastActiveIn p.2 id then true else acc)
      false
  else false

/-- getContainer: null when nothing is mounted; the latest registered
container when the given id is falsy or absent; otherwise the Map entry
under the given id. -/
def getContainer (containerId : Option JSVal) (s : ToastState) :
    Option Container :=
  if !(isAnyContainerMounted s) then none
  else if !(truthy (containerId.getD .vundefined)) then
    match s.latestInstance with
    | none => none
    | some k => mapGet s.containers k
  else mapGet s.containers (.byId (containerId.getD .vundefined))

/-- getToast: the record stored in the selected container collection under
the stringified toast id, or null. -/
def getToast (toastId : JSVal) (options : ToastOptions) (s : ToastState) :
    Option ToastRecord :=
  match getContainer options.containerId s with
  | none => none
  | some container =>
    match container.collection.find? (fun p => p.1 == jsToKey toastId) with
    | none => none
    | some p => some p.2

/-- The JavaScript or of the caller-supplied toastId with a fallback, as
in the expression options.toastId or toastId of toast.update. -/
def jsOrId (x : Option JSVal) (fallback : JSVal) : JSVal :=
  if truthy (x.getD .vundefined) then x.getD .vundefined else fallback

/-- The refresh condition of toast.update: not options.toastId, or
options.toastId strictly equal to the original id. -/
def updateInPlace (optsToastId : Option JSVal) (toastId : JSVal) : Bool :=
  !(truthy (optsToastId.getD .vundefined)) ||
    jsStrictEq (optsToastId.getD .vundefined) toastId

/-- The nextOptions object built by toast.update once the record is found:
spread the old options, spread the new ones, force the target toastId,
then stamp either a fresh updateId (in-place refresh) or the stale
toastId (move to a new identifier). -/
def updateNextOptions (toastId : JSVal) (opts oldOptions : ToastOptions)
    (seed : Nat) : ToastOptions :=
  let merged := spreadOptions oldOptions opts
  let nextId := jsOrId opts.toastId toastId
  if updateInPlace opts.toastId toastId then
    { merged with toastId := some nextId,
                  updateId := some (generateToastId seed) }
  else
    { merged with toastId := some nextId, staleToastId := some toastId }

/-- The body of toast.update when the record was found: build nextOptions,
take the content from its render key when present (else keep the old
content), drop the render key, and dispatch. -/
def updateFound (toastId : JSVal) (opts : ToastOptions) (t : ToastRecord)
    (s : ToastState) : ToastState × List Event :=
  let stamped := updateNextOptions toastId opts t.options s.seed
  let seed2 := if updateInPlace opts.toastId toastId then s.seed + 1 else s.seed
  let content :=
    match stamped.render with
    | some r => r
    | none => t.content
  let d := dispatchToast content { stamped with render := none }
    { s with seed := seed2 }
  (d.state, d.events)

/-- The deferred callback of toast.update, run one tick later: look the
record up and either do nothing or rebuild and dispatch it. -/
def runUpdate (toastId : JSVal) (opts : ToastOptions) (s : ToastState) :
    ToastState × List Event :=
  match getToast toastId opts s with
  | none => (s, [])
  | some t => updateFound toastId opts t s

/-- A deferred update task: toast.update defers its whole body to the next
tick, so the synchronous call amounts to capturing the id and options. -/
structure Deferred where
  toastId : JSVal
  options : ToastOptions
  deriving DecidableEq

/-- toast.update as called synchronously: schedule the deferred body. -/
def toastUpdate (toastId : JSVal) (options : ToastOptions) : Deferred :=
  ⟨toastId, options⟩

/-- toast.done: update the toast with a controlled progress of 1. -/
def toastDone (id : JSVal) : Deferred :=
  toastUpdate id { progress := some (.vnum 1) }

/-- Run a deferred update task on a state. -/
def runDeferred (d : Deferred) (s : ToastState) : ToastState × List Event :=
  runUpdate d.toastId d.options s

/-- The DID_MOUNT handler: record the latest instance key, register the
container, replay every queued entry through the bus in order, then empty
the queue. -/
def didMount (c : Container) (s : ToastState) : ToastState × List Event :=
  let key := containerKey c
  let s1 := { s with latestInstance := some key
                     containers := mapSet s.containers key c }
  ({ s1 with queue := [] },
   s1.queue.map (fun e => Event.showEvt e.action e.content e.options))

/-- Modelled from the spec: eventManager.off with no listener argument
(the event manager lives in src/utils, which is not part of the sources);
section 4.1 says off removes all listeners for that action, so the whole
entry for the action is dropped from the listener table. -/
def busOff (l : List (String × List Nat)) (action : String) :
    List (String × List Nat) :=
  l.filter (fun p => !(p.1 == action))

/-- The listener tags registered for an action, if any. -/
def busLookup (l : List (String × List Nat)) (action : String) :
    Option (List Nat) :=
  (l.find? (fun p => p.1 == action)).map Prod.snd

/-- Modelled from the spec: eventManager.on (src/utils), which appends a
listener for the action; used only to give toast.onChange a footprint. -/
def busOn (l : List (String × List Nat)) (action : String) (tag : Nat) :
    List (String × List Nat) :=
  match l.find? (fun p => p.1 == action) with
  | some _ => l.map (fun p => if p.1 == action then (p.1, p.2 ++ [tag]) else p)
  | none => l ++ [(action, [tag])]

/-- The WILL_UNMOUNT handler: delete the registry entry of the given
instance, or clear the whole registry when none is given; when the
registry is then empty, detach the show and clear listeners from the bus.
The final step of the source removes the lazily created DOM node from the
document; it reassigns none of the module variables, so it leaves this
state unchanged. -/
def willUnmount (ci : Option Container) (s : ToastState) : ToastState :=
  let s1 :=
    match ci with
    | some c => { s with containers := mapDelete s.containers (containerKey c) }
    | none => { s with containers := [] }
  if s1.containers.length == 0 then
    { s1 with busListeners := busOff (busOff s1.busListeners "show") "clear" }
  else s1

/-- The public operations plus the bus lifecycle events, as one step
alphabet for invariant reasoning. -/
inductive ToastOp where
  | showOp (content : ToastContent) (options : Option ToastOptions)
  | dismissOp (id : Option JSVal)
  | updateTick (toastId : JSVal) (options : ToastOptions)
  | mount (c : Container)
  | unmount (c : Option Container)
  | configureOp (config : Nat)
  | onChangeOp (tag : Nat)

/-- The state reached after one operation. -/
def stepOp : ToastOp → ToastState → ToastState
  | .showOp c o, s => (toastShow c o s).state
  | .dismissOp i, s => (toastDismiss i s).1
  | .updateTick id o, s => (runUpdate id o s).1
  | .mount c, s => (didMount c s).1
  | .unmount c, s => willUnmount c s
  | .configureOp cfg, s => { s with lazy := true, containerConfig := cfg }
  | .onChangeOp tag, s => { s with busListeners := busOn s.busListeners "change" tag }

/-- The queue/registry invariant: while some container is registered, the
pending queue is empty. -/
def queueInvariant (s : ToastState) : Prop :=
  s.containers ≠ [] → s.queue = []

/-- Run a list of plain toast calls in order, collecting emitted events. -/
def runShows (calls : List (ToastContent × Option ToastOptions))
    (s : ToastState) : ToastState × List Event :=
  match calls with
  | [] => (s, [])
  | (c, o) :: rest =>
    let d := toastShow c o s
    let r := runShows rest d.state
    (r.1, d.events ++ r.2)

/-- The queue entries that a list of toast calls produces, starting from a
given allocator seed: one show entry per call, carrying that call content
and its merged options, in call order. -/
def bufferShows : List (ToastContent × Option ToastOptions) → Nat → List QueueEntry
  | [], _ => []
  | (c, o) :: rest, seed =>
    let m := mergeOptions o (resolveType o) seed
    { action := "show", content := c, options := m.1 } :: bufferShows rest m.2

/-- The options of the single show emission in an event trace, if the
trace is exactly one show event. -/
def dispatchedShowOptions : List Event → Option ToastOptions
  | [.showEvt _ _ o] => some o
  | _ => none

/-- A concrete record used to instantiate the theorems: content token 7,
stored under toast id 1. -/
def demoRecord : ToastRecord :=
  { content := 7, options := { toastId := some (.vnum 1) } }

/-- A concrete mounted container with id c, holding demoRecord under the
key 1 and reporting toast id 1 as active. -/
def demoContainer : Container :=
  { containerId := .vstr "c", instanceTag := 0,
    collection := [("1", demoRecord)], activeIds := [.vnum 1] }

/-- A concrete state in which demoContainer is the one mounted container. -/
def demoState : ToastState :=
  { containers := [(.byId (.vstr "c"), demoContainer)],
    latestInstance := some (.byId (.vstr "c")) }

/-- A concrete state with one mounted container and listeners registered
for the show, clear and change actions. -/
def demoBusState : ToastState :=
  { containers := [(.byId (.vstr "c"), demoContainer)],
    latestInstance := some (.byId (.vstr "c")),
    busListeners := [("show", [1]), ("clear", [2]), ("change", [3])] }

/-- The update target exactly as claim C2 words it: nullish coalescing of
options.toastId with the original id, so the number 0 and the empty string
are kept as targets and only an absent, undefined or null toastId falls
back to the original id. -/
def nullishTarget (x : Option JSVal) (id : JSVal) : JSVal :=
  match x with
  | none => id
  | some .vundefined => id
  | some .vnull => id
  | some v => v

/-- Claim C2 as stated: for every update whose record is found, the
dispatched options carry toastId equal to the nullish coalescing of
options.toastId with the original id; a fresh updateId and no staleToastId
when that target equals the original id, and staleToastId equal to the
original id otherwise. -/
def updateTargetClaim : Prop :=
  ∀ (id : JSVal) (opts : ToastOptions) (s : ToastState) (t : ToastRecord),
    getToast id opts s = some t →
    ∃ dopts, dispatchedShowOptions (runUpdate id opts s).2 = some dopts ∧
      dopts.toastId = some (nullishTarget opts.toastId id) ∧
      (nullishTarget opts.toastId id = id →
        dopts.updateId.isSome = true ∧ dopts.staleToastId = none) ∧
      (nullishTarget opts.toastId id ≠ id → dopts.staleToastId = some id)

/-- Claim C3 as stated: the id returned by a toast call is the
caller-supplied options.toastId when that is a non-empty string or a
non-NaN number, and a freshly generated id otherwise. -/
def resolvedIdClaim : Prop :=
  ∀ (content : ToastContent) (opts : Option ToastOptions) (s : ToastState),
    (toastShow content opts s).ret =
      (match opts with
       | some o =>
         match o.toastId with
         | some (.vstr str) => if str = "" then generateToastId s.seed else .vstr str
         | some (.vnum n) => .vnum n
         | _ => generateToastId s.seed
       | none => generateToastId s.seed)

theorem isAnyContainerMounted_false {s : ToastState} (h : s.containers = []) :
    isAnyContainerMounted s = false := by
  simp [isAnyContainerMounted, h]

theorem isAnyContainerMounted_true {s : ToastState} (h : s.containers ≠ []) :
    isAnyContainerMounted s = true := by
  simp [isAnyContainerMounted, List.length_pos, h]

theorem dispatchToast_mounted (content : ToastContent) (o : ToastOptions)
    (s : ToastState) (h : s.containers ≠ []) :
    dispatchToast content o s =
      { state := s, events := [.showEvt "show" content o],
        ret := o.toastId.getD .vundefined } := by
  simp [dispatchToast, isAnyContainerMounted_true h]

theorem dispatchToast_containers (content : ToastContent) (o : ToastOptions)
    (s : ToastState) :
    (dispatchToast content o s).state.containers = s.containers := by
  unfold dispatchToast
  split
  · rfl
  · dsimp only
    split <;> rfl

theorem dispatchToast_queue_mounted (content : ToastContent) (o : ToastOptions)
    (s : ToastState) (h : s.containers ≠ []) :
    (dispatchToast content o s).state.queue = s.queue := by
  rw [dispatchToast_mounted content o s h]

theorem dispatchToast_ret (content : ToastContent) (o : ToastOptions)
    (s : ToastState) :
    (dispatchToast content o s).ret = o.toastId.getD .vundefined := by
  unfold dispatchToast
  split
  · rfl
  · rfl

theorem dispatchToast_empty (content : ToastContent) (o : ToastOptions)
    (s : ToastState) (h : s.containers = []) :
    (dispatchToast content o s).state.containers = [] ∧
    (dispatchToast content o s).state.queue = s.queue ++ [⟨"show", content, o⟩] ∧
    (dispatchToast content o s).state.seed = s.seed ∧
    (dispatchToast content o s).events = [] := by
  rw [dispatchToast, isAnyContainerMounted_false h]
  dsimp only
  split
  · simp_all
  · split <;> simp [h]

theorem toastShow_containers (content : ToastContent) (o : Option ToastOptions)
    (s : ToastState) :
    (toastShow content o s).state.containers = s.containers := by
  unfold toastShow
  rw [dispatchToast_containers]

theorem toastShow_mounted (content : ToastContent) (o : Option ToastOptions)
    (s : ToastState) (h : s.containers ≠ []) :
    toastShow content o s =
      { state := { s with seed := (mergeOptions o (resolveType o) s.seed).2 },
        events := [.showEvt "show" content
          (mergeOptions o (resolveType o) s.seed).1],
        ret := ((mergeOptions o (resolveType o) s.seed).1.toastId).getD
          .vundefined } := by
  unfold toastShow
  exact dispatchToast_mounted _ _ _ (by simpa using h)

theorem toastShow_empty (content : ToastContent) (o : Option ToastOptions)
    (s : ToastState) (h : s.containers = []) :
    (toastShow content o s).state.containers = [] ∧
    (toastShow content o s).state.queue =
      s.queue ++ [⟨"show", content, (mergeOptions o (resolveType o) s.seed).1⟩] ∧
    (toastShow content o s).state.seed =
      (mergeOptions o (resolveType o) s.seed).2 ∧
    (toastShow content o s).events = [] := by
  unfold toastShow
  have := dispatchToast_empty content (mergeOptions o (resolveType o) s.seed).1
    { s with seed := (mergeOptions o (resolveType o) s.seed).2 } (by simpa using h)
  simpa using this

theorem toastShow_ret (content : ToastContent) (o : Option ToastOptions)
    (s : ToastState) :
    (toastShow content o s).ret = (getToastId o s.seed).1 := by
  unfold toastShow
  rw [dispatchToast_ret]
  rfl

theorem getToast_empty (id : JSVal) (o : ToastOptions) (s : ToastState)
    (h : s.containers = []) : getToast id o s = none := by
  simp [getToast, getContainer, isAnyContainerMounted_false h]

theorem getToast_pos {id : JSVal} {o : ToastOptions} {s : ToastState}
    {t : ToastRecord} (h : getToast id o s = some t) : s.containers ≠ [] := by
  intro hc
  rw [getToast_empty id o s hc] at h
  cases h

theorem runShows_empty (calls : List (ToastContent × Option ToastOptions))
    (s : ToastState) (h : s.containers = []) :
    (runShows calls s).1.containers = [] ∧
    (runShows calls s).1.queue = s.queue ++ bufferShows calls s.seed ∧
    (runShows calls s).2 = [] := by
  induction calls generalizing s with
  | nil => simp [runShows, bufferShows, h]
  | cons hd tl ih =>
    obtain ⟨c, o⟩ := hd
    obtain ⟨h1, h2, h3, h4⟩ := toastShow_empty c o s h
    obtain ⟨g1, g2, g3⟩ := ih (toastShow c o s).state h1
    refine ⟨?_, ?_, ?_⟩
    · simpa [runShows] using g1
    · simp only [runShows, bufferShows]
      rw [g2, h2, h3]
      simp
    · simp [runShows, h4, g3]

theorem foldl_latch (l : List (RegKey × Container)) (id : JSVal) (acc : Bool) :
    l.foldl (fun a p => if isToastActiveIn p.2 id then true else a) acc =
      (acc || l.any (fun p => isToastActiveIn p.2 id)) := by
  induction l generalizing acc with
  | nil => simp
  | cons hd tl ih =>
    simp only [List.foldl_cons, List.any_cons]
    rw [ih]
    cases hacc : isToastActiveIn hd.2 id <;>
      simp [hacc, Bool.or_comm, Bool.or_assoc, Bool.or_left_comm]

theorem busLookup_busOff (l : List (String × List Nat)) (a : String) :
    busLookup (busOff l a) a = none := by
  unfold busLookup busOff
  rw [Option.map_eq_none', List.find?_eq_none]
  intro x hx
  have hmem := (List.mem_filter.1 hx).2
  simp at hmem ⊢
  exact hmem

theorem busLookup_busOff_other (l : List (String × List Nat)) (a b : String)
    (h : busLookup l a = none) : busLookup (busOff l b) a = none := by
  unfold busLookup busOff
  unfold busLookup at h
  rw [Option.map_eq_none', List.find?_eq_none]
  rw [Option.map_eq_none', List.find?_eq_none] at h
  intro x hx
  exact h x (List.mem_filter.1 hx).1

theorem willUnmount_containers (ci : Option Container) (s : ToastState) :
    (willUnmount ci s).containers =
      (match ci with
       | some c => mapDelete s.containers (containerKey c)
       | none => []) := by
  unfold willUnmount
  cases ci <;> dsimp only <;> split <;> rfl

theorem willUnmount_queue (ci : Option Container) (s : ToastState) :
    (willUnmount ci s).queue = s.queue := by
  unfold willUnmount
  cases ci <;> dsimp only <;> split <;> rfl

theorem willUnmount_bus_detached (ci : Option Container) (s : ToastState)
    (h : (willUnmount ci s).containers = []) :
    (willUnmount ci s).busListeners =
      busOff (busOff s.busListeners "show") "clear" := by
  rw [willUnmount_containers] at h
  unfold willUnmount
  cases ci with
  | none =>
    dsimp only
    rw [if_pos (by simp)]
  | some c =>
    dsimp only at h ⊢
    rw [if_pos (by simp [h])]

theorem truthy_ne_nan {v : JSVal} (h : truthy v = true) : v ≠ .vnan := by
  intro hv
  rw [hv] at h
  simp [truthy] at h

theorem jsStrictEq_iff {v : JSVal} (w : JSVal) (h : truthy v = true) :
    jsStrictEq v w = true ↔ v = w := by
  unfold jsStrictEq
  have hv : (v == JSVal.vnan) = false := by
    simpa using truthy_ne_nan h
  by_cases hw : w = .vnan
  · subst hw
    simp [hv]
    exact truthy_ne_nan h
  · have hw2 : (w == JSVal.vnan) = false := by simpa using hw
    simp [hv, hw2]

theorem updateInPlace_iff (x : Option JSVal) (id : JSVal) :
    updateInPlace x id = true ↔ jsOrId x id = id := by
  unfold updateInPlace jsOrId
  by_cases ht : truthy (x.getD .vundefined) = true
  · rw [if_pos ht]
    simp [ht, jsStrictEq_iff id ht]
  · have ht2 : truthy (x.getD .vundefined) = false := by
      simpa using ht
    rw [if_neg ht]
    simp [ht2]

theorem updateNextOptions_toastId (id : JSVal) (opts old : ToastOptions)
    (seed : Nat) :
    (updateNextOptions id opts old seed).toastId = some (jsOrId opts.toastId id) := by
  unfold updateNextOptions
  split <;> rfl

theorem updateNextOptions_inPlace (id : JSVal) (opts old : ToastOptions)
    (seed : Nat) (h : updateInPlace opts.toastId id = true) :
    (updateNextOptions id opts old seed).updateId =
      some (generateToastId seed) ∧
    (updateNextOptions id opts old seed).staleToastId =
      spreadField old.staleToastId opts.staleToastId := by
  unfold updateNextOptions
  rw [if_pos h]
  exact ⟨rfl, rfl⟩

theorem updateNextOptions_move (id : JSVal) (opts old : ToastOptions)
    (seed : Nat) (h : updateInPlace opts.toastId id = false) :
    (updateNextOptions id opts old seed).staleToastId = some id := by
  unfold updateNextOptions
  rw [if_neg (by simp [h])]

theorem updateNextOptions_progress (id : JSVal) (opts old : ToastOptions)
    (seed : Nat) :
    (updateNextOptions id opts old seed).progress =
      spreadField old.progress opts.progress := by
  unfold updateNextOptions
  split <;> rfl

theorem updateFound_events (id : JSVal) (opts : ToastOptions) (t : ToastRecord)
    (s : ToastState) (h : s.containers ≠ []) :
    (updateFound id opts t s).2 =
      [.showEvt "show"
        (match (updateNextOptions id opts t.options s.seed).render with
         | some r => r
         | none => t.content)
        { updateNextOptions id opts t.options s.seed with render := none }] := by
  simp only [updateFound]
  rw [dispatchToast_mounted _ _ _ (by simpa using h)]

theorem runUpdate_found {id : JSVal} {opts : ToastOptions} {s : ToastState}
    {t : ToastRecord} (h : getToast id opts s = some t) :
    runUpdate id opts s = updateFound id opts t s := by
  unfold runUpdate
  rw [h]

/-- C1: for every sequence of toast calls issued while no container is
registered, nothing is emitted and each call appends exactly one queue
entry carrying its content and merged options, in call order
(bufferShows); when the first container registers, the DID_MOUNT handler
replays exactly one show event per buffered entry, in queue order, and
leaves the queue empty. -/
theorem toastify_C1 (calls : List (ToastContent × Option ToastOptions))
    (s : ToastState) (c : Container) (h : s.containers = []) :
    (runShows calls s).2 = [] ∧
    (runShows calls s).1.queue = s.queue ++ bufferShows calls s.seed ∧
    (didMount c (runShows calls s).1).2 =
      ((runShows calls s).1.queue).map
        (fun e => Event.showEvt e.action e.content e.options) ∧
    (didMount c (runShows calls s).1).1.queue = [] := by
  obtain ⟨g1, g2, g3⟩ := runShows_empty calls s h
  exact ⟨g3, g2, rfl, rfl⟩

theorem toastify_C1_witness :
    (runShows [(1, some { toastId := some (JSVal.vstr "a") }), (2, none)]
        ({} : ToastState)).1.queue =
      ({} : ToastState).queue ++
        bufferShows [(1, some { toastId := some (JSVal.vstr "a") }), (2, none)]
          ({} : ToastState).seed ∧
    (didMount {} (runShows [(1, some { toastId := some (JSVal.vstr "a") }),
        (2, none)] ({} : ToastState)).1).1.queue = [] :=
  ⟨(toastify_C1 [(1, some { toastId := some (JSVal.vstr "a") }), (2, none)]
      {} {} rfl).2.1,
   (toastify_C1 [(1, some { toastId := some (JSVal.vstr "a") }), (2, none)]
      {} {} rfl).2.2.2⟩

/-- C3 counterexample: the claim requires a freshly generated id whenever
the caller-supplied toastId is not a non-empty string, but getToastId
accepts every string, so toast called with the empty string as toastId
returns the empty string rather than a generated id. -/
theorem toastify_C3_counterexample : ¬ resolvedIdClaim := by
  intro h
  exact absurd (h 0 (some { toastId := some (.vstr "") }) {}) (by decide)

/-- C3 amended: the returned identifier equals the caller-supplied
options.toastId when that value is any string (the empty string included)
or a well-formed non-NaN number, and otherwise equals a freshly generated
identifier; the return value is the same whether the dispatch is emitted
immediately or enqueued, since it does not depend on the registry. -/
theorem toastify_C3_amended (content : ToastContent) (opts : Option ToastOptions)
    (s : ToastState) :
    (toastShow content opts s).ret =
      (match opts with
       | some o =>
         match o.toastId with
         | some (.vstr str) => .vstr str
         | some (.vnum n) => .vnum n
         | _ => generateToastId s.seed
       | none => generateToastId s.seed) := by
  rw [toastShow_ret]
  cases opts with
  | none => rfl
  | some o =>
    rcases ho : o.toastId with _ | v
    · simp [getToastId, ho]
    · cases v <;> simp [getToastId, ho]

/-- C4: isActive returns false whenever the registry is empty, and
returns true exactly when some registered container reports the id as
active. -/
theorem toastify_C4 (id : JSVal) (s : ToastState) :
    (s.containers = [] → toastIsActive id s = false) ∧
    (toastIsActive id s = true ↔
      ∃ p ∈ s.containers, isToastActiveIn p.2 id = true) := by
  constructor
  · intro h
    simp [toastIsActive, h]
  · unfold toastIsActive
    split
    · rw [foldl_latch]
      simp [List.any_eq_true]
    · rename_i hlen
      have hnil : s.containers = [] := by
        by_contra hne
        exact hlen (List.length_pos.mpr hne)
      rw [hnil]
      simp

theorem toastify_C4_witness :
    toastIsActive (.vnum 1) ({} : ToastState) = false ∧
    toastIsActive (.vnum 1) demoState = true :=
  ⟨(toastify_C4 (.vnum 1) {}).1 rfl,
   (toastify_C4 (.vnum 1) demoState).2.mpr
     ⟨(.byId (.vstr "c"), demoContainer), by decide, by decide⟩⟩

/-- C5: dismiss leaves the dispatcher state (the queue included)
untouched, emits the clear event exactly when at least one container is
registered, and emits nothing when the registry is empty. -/
theorem toastify_C5 (id : Option JSVal) (s : ToastState) :
    (toastDismiss id s).1 = s ∧
    (s.containers ≠ [] → (toastDismiss id s).2 = [.clearEvt id]) ∧
    (s.containers = [] → (toastDismiss id s).2 = []) := by
  refine ⟨?_, ?_, ?_⟩
  · unfold toastDismiss
    split <;> rfl
  · intro h
    simp [toastDismiss, isAnyContainerMounted_true h]
  · intro h
    simp [toastDismiss, isAnyContainerMounted_false h]

theorem toastify_C5_witness :
    (toastDismiss (some (.vnum 1)) demoState).2 =
      [.clearEvt (some (.vnum 1))] ∧
    (toastDismiss (some (.vnum 1)) ({} : ToastState)).2 = [] :=
  ⟨(toastify_C5 (some (.vnum 1)) demoState).2.1 (by decide),
   (toastify_C5 (some (.vnum 1)) {}).2.2 rfl⟩

/-- C6: when the registry is empty the record lookup fails, and whenever
the record lookup fails the deferred update body returns the state
unchanged and emits nothing (so nothing is emitted or enqueued). -/
theorem toastify_C6 (id : JSVal) (opts : ToastOptions) (s : ToastState) :
    (s.containers = [] → getToast id opts s = none) ∧
    (getToast id opts s = none → runUpdate id opts s = (s, [])) := by
  refine ⟨fun h => getToast_empty id opts s h, fun h => ?_⟩
  unfold runUpdate
  rw [h]

theorem toastify_C6_witness :
    runUpdate (.vnum 1) {} ({} : ToastState) = ({}, []) :=
  (toastify_C6 (.vnum 1) {} {}).2 ((toastify_C6 (.vnum 1) {} {}).1 rfl)

/-- C2 counterexample: updating the record stored under id 1 with the
well-formed number 0 as the new toastId.  Read with nullish coalescing, as
the claim states it, the target would be 0, so the dispatch would carry
staleToastId 1 and move the record to id 0; the code instead treats the
falsy 0 as no target, keeps id 1 and carries no staleToastId. -/
theorem toastify_C2_counterexample : ¬ updateTargetClaim := by
  intro h
  obtain ⟨d, hd, htid, hip, hmv⟩ :=
    h (.vnum 1) { toastId := some (.vnum 0) } demoState demoRecord (by decide)
  have hst : d.staleToastId = some (.vnum 1) := hmv (by decide)
  have hev : (dispatchedShowOptions (runUpdate (.vnum 1)
      { toastId := some (.vnum 0) } demoState).2).map
      (fun o => o.staleToastId) = some none := by decide
  rw [hd] at hev
  simp only [Option.map_some'] at hev
  rw [hst] at hev
  simp at hev

/-- C2 amended: the effective target identifier is options.toastId when
that value is truthy, otherwise the original id (JavaScript or, not
nullish coalescing).  When the target equals the original id the
dispatched options carry a freshly generated updateId and keep a
staleToastId only when one was already present in the merged old and new
options; otherwise they carry staleToastId equal to the original id and
the record is dispatched under the new identifier. -/
theorem toastify_C2_amended (id : JSVal) (opts : ToastOptions) (s : ToastState)
    (t : ToastRecord) (h : getToast id opts s = some t) :
    ∃ dopts, dispatchedShowOptions (runUpdate id opts s).2 = some dopts ∧
      dopts.toastId = some (jsOrId opts.toastId id) ∧
      (jsOrId opts.toastId id = id →
        dopts.updateId = some (generateToastId s.seed) ∧
        dopts.staleToastId =
          spreadField t.options.staleToastId opts.staleToastId) ∧
      (jsOrId opts.toastId id ≠ id → dopts.staleToastId = some id) := by
  have hne := getToast_pos h
  rw [runUpdate_found h, updateFound_events id opts t s hne]
  refine ⟨_, rfl, ?_, ?_, ?_⟩
  · exact updateNextOptions_toastId id opts t.options s.seed
  · intro hEq
    have hip : updateInPlace opts.toastId id = true :=
      (updateInPlace_iff _ _).mpr hEq
    exact updateNextOptions_inPlace id opts t.options s.seed hip
  · intro hNe
    have hip : updateInPlace opts.toastId id = false := by
      rcases Bool.eq_false_or_eq_true (updateInPlace opts.toastId id) with ht | hf
      · exact absurd ((updateInPlace_iff _ _).mp ht) hNe
      · exact hf
    exact updateNextOptions_move id opts t.options s.seed hip

theorem toastify_C2_witness :
    ∃ dopts, dispatchedShowOptions (runUpdate (.vnum 1)
        { toastId := some (.vnum 2) } demoState).2 = some dopts ∧
      dopts.toastId = some (.vnum 2) ∧
      dopts.staleToastId = some (.vnum 1) := by
  obtain ⟨d, hd, htid, hip, hmv⟩ :=
    toastify_C2_amended (.vnum 1) { toastId := some (.vnum 2) } demoState
      demoRecord (by decide)
  refine ⟨d, hd, ?_, hmv (by decide)⟩
  rw [htid]
  decide

/-- C7: an unmount event carrying a container removes exactly that
container registry entry; an unmount event carrying none clears the whole
registry; and whenever the registry is empty after the unmount, the bus
holds no show listener and no clear listener any more. -/
theorem toastify_C7 (ci : Option Container) (s : ToastState) :
    (∀ c, ci = some c →
      (willUnmount ci s).containers = mapDelete s.containers (containerKey c)) ∧
    (ci = none → (willUnmount ci s).containers = []) ∧
    ((willUnmount ci s).containers = [] →
      busLookup (willUnmount ci s).busListeners "show" = none ∧
      busLookup (willUnmount ci s).busListeners "clear" = none) := by
  refine ⟨?_, ?_, ?_⟩
  · intro c hc
    subst hc
    rw [willUnmount_containers]
  · intro hc
    subst hc
    rw [willUnmount_containers]
  · intro h
    rw [willUnmount_bus_detached ci s h]
    exact ⟨busLookup_busOff_other _ "show" "clear" (busLookup_busOff _ "show"),
           busLookup_busOff _ "clear"⟩

theorem toastify_C7_witness :
    (willUnmount none demoBusState).containers = [] ∧
    busLookup (willUnmount none demoBusState).busListeners "show" = none ∧
    busLookup (willUnmount none demoBusState).busListeners "clear" = none := by
  have h := toastify_C7 none demoBusState
  have h1 := h.2.1 rfl
  exact ⟨h1, (h.2.2 h1).1, (h.2.2 h1).2⟩

/-- C8: done defers exactly the update task with progress 1, so running
the deferred bodies on any state gives identical results; moreover, when
the record is found, the single dispatched record carries progress 1 under
the original identifier. -/
theorem toastify_C8 (id : JSVal) (s : ToastState) :
    runDeferred (toastDone id) s =
      runDeferred (toastUpdate id { progress := some (.vnum 1) }) s ∧
    (∀ t, getToast id { progress := some (.vnum 1) } s = some t →
      ∃ dopts,
        dispatchedShowOptions (runDeferred (toastDone id) s).2 = some dopts ∧
        dopts.progress = some (.vnum 1) ∧
        dopts.toastId = some id) := by
  refine ⟨rfl, fun t ht => ?_⟩
  have hne := getToast_pos ht
  simp only [runDeferred, toastDone, toastUpdate]
  rw [runUpdate_found ht,
    updateFound_events id { progress := some (.vnum 1) } t s hne]
  refine ⟨_, rfl, ?_, ?_⟩
  · exact updateNextOptions_progress id { progress := some (.vnum 1) }
      t.options s.seed
  · exact updateNextOptions_toastId id { progress := some (.vnum 1) }
      t.options s.seed

theorem toastify_C8_witness :
    ∃ dopts,
      dispatchedShowOptions (runDeferred (toastDone (.vnum 1)) demoState).2 =
        some dopts ∧
      dopts.progress = some (.vnum 1) ∧
      dopts.toastId = some (.vnum 1) :=
  (toastify_C8 (.vnum 1) demoState).2 demoRecord (by decide)

theorem toastDismiss_fst (id : Option JSVal) (s : ToastState) :
    (toastDismiss id s).1 = s := by
  unfold toastDismiss
  split <;> rfl

/-- C9: the queue/registry invariant (whenever at least one container is
registered, the pending queue is empty) is preserved by every operation:
toast calls, dismiss, the deferred update body, mount, unmount, configure
and onChange. -/
theorem toastify_C9 (op : ToastOp) (s : ToastState) (h : queueInvariant s) :
    queueInvariant (stepOp op s) := by
  cases op with
  | showOp c o =>
    simp only [stepOp]
    intro hne
    rw [toastShow_containers] at hne
    rw [toastShow_mounted c o s hne]
    exact h hne
  | dismissOp i =>
    simp only [stepOp]
    rw [toastDismiss_fst]
    exact h
  | updateTick id o =>
    simp only [stepOp]
    rcases hg : getToast id o s with _ | t
    · intro hne
      simp only [runUpdate, hg] at hne ⊢
      exact h hne
    · intro hne
      simp only [runUpdate_found hg, updateFound] at hne ⊢
      rw [dispatchToast_containers] at hne
      have hs : s.containers ≠ [] := by simpa using hne
      rw [dispatchToast_queue_mounted _ _ _ (by simpa using hs)]
      exact h hs
  | mount c =>
    simp only [stepOp]
    intro hne
    rfl
  | unmount c =>
    simp only [stepOp]
    intro hne
    rw [willUnmount_queue]
    apply h
    intro hs
    apply hne
    rw [willUnmount_containers]
    cases c with
    | none => rfl
    | some c2 =>
      rw [hs]
      rfl
  | configureOp cfg =>
    exact fun hne => h hne
  | onChangeOp tag =>
    exact fun hne => h hne

theorem toastify_C9_witness :
    queueInvariant (stepOp (.showOp 1 none) ({} : ToastState)) :=
  toastify_C9 (.showOp 1 none) {} (fun hne => absurd rfl hne)

/-- C10: an update whose caller-supplied toastId is the falsy but defined
number 0 or empty string is treated as an in-place refresh: when the
record is found (and, the internal staleToastId key being internal, is
stored without one and updated without one), the dispatched options keep
the original identifier, carry a fresh updateId, and carry no
staleToastId. -/
theorem toastify_C10 (id : JSVal) (opts : ToastOptions) (s : ToastState)
    (t : ToastRecord)
    (hv : opts.toastId = some (.vnum 0) ∨ opts.toastId = some (.vstr ""))
    (h : getToast id opts s = some t)
    (hold : t.options.staleToastId = none) (hnew : opts.staleToastId = none) :
    ∃ dopts, dispatchedShowOptions (runUpdate id opts s).2 = some dopts ∧
      dopts.toastId = some id ∧
      dopts.updateId = some (generateToastId s.seed) ∧
      dopts.staleToastId = none := by
  have hne := getToast_pos h
  have hfalsy : truthy (opts.toastId.getD .vundefined) = false := by
    rcases hv with hv | hv <;> rw [hv] <;> rfl
  have hip : updateInPlace opts.toastId id = true := by
    unfold updateInPlace
    rw [hfalsy]
    rfl
  have htgt : jsOrId opts.toastId id = id := by
    unfold jsOrId
    rw [hfalsy]
    simp
  rw [runUpdate_found h, updateFound_events id opts t s hne]
  refine ⟨_, rfl, ?_, ?_, ?_⟩
  · have h1 := updateNextOptions_toastId id opts t.options s.seed
    rw [htgt] at h1
    exact h1
  · exact (updateNextOptions_inPlace id opts t.options s.seed hip).1
  · have h1 := (updateNextOptions_inPlace id opts t.options s.seed hip).2
    rw [hold, hnew] at h1
    exact h1

theorem toastify_C10_witness :
    ∃ dopts, dispatchedShowOptions (runUpdate (.vnum 1)
        { toastId := some (.vnum 0) } demoState).2 = some dopts ∧
      dopts.toastId = some (.vnum 1) ∧
      dopts.updateId = some (generateToastId demoState.seed) ∧
      dopts.staleToastId = none :=
  toastify_C10 (.vnum 1) { toastId := some (.vnum 0) } demoState demoRecord
    (Or.inl rfl) (by decide) rfl rfl
